import Mathlib

/-!
Shallow embedding of the network-topology analysis engine of the TOPS web
application frontend.

The JavaScript source keeps several near-identical copies of the engine:

* `detectIslands`, `mapGeneratorsToIslands`, `calculateIslandFrequencies`
  appear identically in `frontend/src/ResultsSection.js` and in the second
  unnamed app file (`part_001`);
* `getLineFlowDirectionSimple` exists in two genuinely different variants:
  the outage-aware variant of the first unnamed app file (`part_000`,
  namespace `Part000` below) and the B8-special-cased variant of the second
  unnamed app file (`part_001`, namespace `Part001` below).

Modelling conventions:

* JS numbers are embedded as `ℚ` (the engine only compares, negates, takes
  min/abs and averages sample values; `NaN` results are made explicit as
  `none` in an `Option ℚ`).
* A JS value that may be `undefined`/`null` is embedded as an `Option`.
* `busPower` may be `null`/not-an-array (`none`) and each of its entries may
  be missing or lack a `p` field (`none`).
* JS `Set` objects are embedded as duplicate-free lists in insertion order
  (`Set.add` appends a not-yet-present element, `Set.has` is membership).
* Node and link objects carry extra rendering-only fields (`name`,
  `voltage`, `group`, `label`, …) that the engine never reads; they are
  omitted from the embedded records.
* The unbounded recursion / while-loops of the source are embedded as
  fuel-indexed recursions; each entry point supplies fuel that dominates the
  number of iterations the JS loop can make on its input.
-/

/-- JS `Set.prototype.add`: append the element unless already present. -/
def sAdd {α : Type} [DecidableEq α] (s : List α) (x : α) : List α :=
  if x ∈ s then s else s ++ [x]

/-- A node of the network graph (`initialNetworkData.nodes` element); only
the `id` field is ever read by the analysis engine. -/
structure JsNode where
  id : String
deriving DecidableEq, Repr

/-- A link of the network graph (`initialNetworkData.links` element).
`source`/`target` are stored as node-id strings (the engine normalises the
object form back to the id via `typeof l.source === "object" ? l.source.id
: l.source`, so the id is all that matters).  Leaf-connection links carry no
`id` field (`none`). -/
structure JsLink where
  id : Option String
  type : String
  source : String
  target : String
deriving DecidableEq, Repr

/-- The network graph (`initialNetworkData`). -/
structure JsGraph where
  nodes : List JsNode
  links : List JsLink
deriving DecidableEq, Repr

/-- JS `Array.prototype.findIndex(n => n.id === s)`: index of the first node
with the given id, `-1` if there is none. -/
def findIdxJS (g : JsGraph) (s : String) : Int :=
  match g.nodes.findIdx? (fun n => n.id = s) with
  | some n => (n : Int)
  | none => -1

/-- Lookup `initialNetworkData.nodes[idx].id`, totalised: `none` when `idx` is out
of range (the JS code would throw there; such indices are unreachable from
the guarded entry points). -/
def nodeIdAt (g : JsGraph) (i : Int) : Option String :=
  match i with
  | Int.ofNat n => (g.nodes.get? n).map (fun nd => nd.id)
  | Int.negSucc _ => none

/-- Read `busPower[idx]?.p ?? 0`: a missing array slot, a missing entry or a
missing `p` field all read as `0`; so does any negative index. -/
def jsP (bp : List (Option ℚ)) (i : Int) : ℚ :=
  match i with
  | Int.ofNat n => ((bp.get? n).bind id).getD 0
  | Int.negSucc _ => 0

/-- JS `isNeutral(p)`, that is `Math.abs(p) < 1e-4`. -/
def isNeutral (p : ℚ) : Prop := |p| < 1 / 10000

/-- The bus test `id.toString().startsWith(..)` with the single-character
prefix B, so this is a first-character test. -/
def startsWithB (s : String) : Bool :=
  match s.data with
  | [] => false
  | c :: _ => c = 'B'

instance (p : ℚ) : Decidable (isNeutral p) :=
  decidable_of_iff ((if p < 0 then -p else p) < mkRat 1 10000) (by
    unfold isNeutral
    have he : (mkRat 1 10000 : ℚ) = 1 / 10000 := by
      norm_num [Rat.mkRat_eq_divInt, Rat.divInt_eq_div]
    rw [he]
    by_cases h : p < 0
    · rw [if_pos h, abs_of_neg h]
    · rw [if_neg h, abs_of_nonneg (not_lt.mp h)])

/- ----------------------------------------------------------------- -/
/- Island detection (ResultsSection.js / part_001, identical copies) -/
/- ----------------------------------------------------------------- -/

/-- The line-outage configuration argument of `detectIslands`.  The JS code
reads `lineOutage?.enabled && lineOutage?.outages` and then matches
`outage.lineId === link.id`; an absent/disabled configuration is `none` /
`(false, _)`, otherwise the list holds the `lineId` strings. -/
def LineOutageCfg : Type := Option (Bool × List String)

/-- The outage test inside the dfs of `detectIslands`:
`lineOutage?.enabled && lineOutage?.outages &&
 lineOutage.outages.some(outage => outage.lineId === link.id)`.
A link without an `id` field never compares equal to a `lineId` string. -/
def isOutagedDI (lo : LineOutageCfg) (l : JsLink) : Bool :=
  match lo with
  | some (true, ids) =>
    match l.id with
    | some lid => ids.contains lid
    | none => false
  | _ => false

/-- JS `nextNode = sourceId === nodeId ? targetId : targetId === nodeId ?
sourceId : null`. -/
def nextNodeOf (l : JsLink) (nodeId : String) : Option String :=
  if l.source = nodeId then some l.target
  else if l.target = nodeId then some l.source
  else none

/-- One dfs step may recurse through `link` iff the link is a line or
transformer, is not outaged, connects to the current node, and its far end
is a truthy (non-empty) id not yet visited. -/
def dfsCanWalk (lo : LineOutageCfg) (visited : List String)
    (nodeId : String) (l : JsLink) : Bool :=
  (l.type = "line" || l.type = "transformer") &&
  !(isOutagedDI lo l) &&
  (match nextNodeOf l nodeId with
   | some nxt => nxt ≠ "" && nxt ∉ visited
   | none => false)

/-- The recursive `dfs(nodeId, currentIsland)` of `detectIslands`,
fuel-indexed.  The state is the pair (visited set, current island); the JS
function mutates both sets in lockstep: it first adds `nodeId` to both, then
folds over all links, recursing on each walkable unvisited neighbour. -/
def dfsAux (g : JsGraph) (lo : LineOutageCfg) :
    Nat → String → List String × List String → List String × List String
  | 0, nodeId, st => (sAdd st.1 nodeId, sAdd st.2 nodeId)
  | fuel + 1, nodeId, st =>
    let st1 : List String × List String := (sAdd st.1 nodeId, sAdd st.2 nodeId)
    g.links.foldl
      (fun s l =>
        if dfsCanWalk lo s.1 nodeId l then
          match nextNodeOf l nodeId with
          | some nxt => dfsAux g lo fuel nxt s
          | none => s
        else s)
      st1

/-- The body of the link loop inside `dfs`, named so proofs can fold the
recursion one layer at a time (`dfsAux (fuel+1)` is definitionally a
`foldl` of this step over the links). -/
def dfsStep (g : JsGraph) (lo : LineOutageCfg) (fuel : Nat) (nodeId : String)
    (s : List String × List String) (l : JsLink) :
    List String × List String :=
  if dfsCanWalk lo s.1 nodeId l then
    match nextNodeOf l nodeId with
    | some nxt => dfsAux g lo fuel nxt s
    | none => s
  else s

lemma dfsAux_succ (g : JsGraph) (lo : LineOutageCfg) (fuel : Nat)
    (nodeId : String) (st : List String × List String) :
    dfsAux g lo (fuel + 1) nodeId st =
      g.links.foldl (dfsStep g lo fuel nodeId) (sAdd st.1 nodeId, sAdd st.2 nodeId) :=
  rfl

/-- Fuel supplied to the dfs: its recursion depth is bounded by the number
of distinct node ids it can ever visit, itself at most `2 * links + 1`. -/
def dfsFuel (g : JsGraph) : Nat := 2 * g.links.length + 2

/-- The body of the `busNodes.forEach` loop of `detectIslands`: skip an
already-visited bus, otherwise run one dfs with a fresh island and push the
island if it is nonempty. -/
def islStep (g : JsGraph) (lo : LineOutageCfg)
    (st : List String × List (List String)) (n : JsNode) :
    List String × List (List String) :=
  if n.id ∈ st.1 then st
  else
    let r := dfsAux g lo (dfsFuel g) n.id (st.1, [])
    if r.2 = [] then (r.1, st.2) else (r.1, st.2 ++ [r.2])

/-- JS `detectIslands(networkData, lineOutage)`: islands of bus-rooted
connected components through in-service line/transformer links, with the
defensive all-buses fallback when no island was produced. -/
def detectIslands (g : JsGraph) (lo : LineOutageCfg) : List (List String) :=
  let busNodes := g.nodes.filter (fun n => startsWithB n.id)
  let st := busNodes.foldl (islStep g lo) ([], [])
  if st.2 = [] ∧ busNodes ≠ [] then
    [busNodes.map (fun n => n.id)]
  else st.2

/-- The three-node fragment `B1 —(transformer T1-1)— T1 —(transformer
T1-2)— B5` of the application `initialNetworkData`. -/
def gB1T1B5 : JsGraph :=
  { nodes := [⟨"B1"⟩, ⟨"T1"⟩, ⟨"B5"⟩]
    links := [⟨some "T1-1", "transformer", "B1", "T1"⟩,
              ⟨some "T1-2", "transformer", "T1", "B5"⟩] }

/- ------------------------------------------------------------------- -/
/- Generator mapping and island frequencies (ResultsSection / part_001) -/
/- ------------------------------------------------------------------- -/

/-- JS `genId = sourceId.replace(..)` deleting the first G: `String.replace`
with a single-character string pattern removes only the first occurrence. -/
def removeFirstG : List Char → List Char
  | [] => []
  | c :: cs => if c = 'G' then cs else c :: removeFirstG cs

/-- JS `sourceId.replace(..)` on strings, deleting the first G. -/
def replaceG (s : String) : String := ⟨removeFirstG s.data⟩

/-- Longest prefix of base-`b` digits, most significant first; `none` when
the very first character is not a digit (JS `NaN`). -/
def parseDigitsAux (b : Nat) (dv : Char → Option Nat) :
    List Char → Option Nat → Option Nat
  | [], acc => acc
  | c :: cs, acc =>
    match dv c with
    | some d => parseDigitsAux b dv cs (some ((acc.getD 0) * b + d))
    | none => acc

/-- Decimal digit value. -/
def decDigit (c : Char) : Option Nat :=
  if '0' ≤ c ∧ c ≤ '9' then some (c.toNat - 48) else none

/-- Hexadecimal digit value. -/
def hexDigit (c : Char) : Option Nat :=
  if '0' ≤ c ∧ c ≤ '9' then some (c.toNat - 48)
  else if 'a' ≤ c ∧ c ≤ 'f' then some (c.toNat - 87)
  else if 'A' ≤ c ∧ c ≤ 'F' then some (c.toNat - 55)
  else none

/-- JS `parseInt(str)` (radix unspecified): skip leading whitespace, read an
optional sign, honour a `0x`/`0X` hex prefix, then take the longest digit
prefix; `none` models `NaN`. -/
def parseIntJS (s : String) : Option Int :=
  let cs := s.data.dropWhile (fun c => c = ' ' ∨ c = '\t' ∨ c = '\n' ∨ c = '\r')
  let sc : Int × List Char :=
    match cs with
    | '-' :: rest => (-1, rest)
    | '+' :: rest => (1, rest)
    | _ => (1, cs)
  match sc.2 with
  | '0' :: 'x' :: rest => (parseDigitsAux 16 hexDigit rest none).map (fun n => sc.1 * n)
  | '0' :: 'X' :: rest => (parseDigitsAux 16 hexDigit rest none).map (fun n => sc.1 * n)
  | rest => (parseDigitsAux 10 decDigit rest none).map (fun n => sc.1 * n)

/-- The object key `parseInt(genId) - 1` computed from the source id of a link;
`none` models the `NaN` key (all non-parsing sources collide on it, exactly
as all `NaN`s collide on the `"NaN"` property). -/
def genKeyOf (l : JsLink) : Option Int :=
  (parseIntJS (replaceG l.source)).map (fun n => n - 1)

/-- Assignment `genMapping[k] = v` on a JS object embedded as an association list:
overwrite the existing entry in place, else append.  (JS iterates
integer-like keys in ascending order rather than insertion order; the order
of entries only ever feeds commutative sums downstream, so insertion order
is kept here.) -/
def assocSet (m : List (Option Int × Nat)) (k : Option Int) (v : Nat) :
    List (Option Int × Nat) :=
  if m.any (fun e => e.1 = k) then
    m.map (fun e => if e.1 = k then (k, v) else e)
  else m ++ [(k, v)]

/-- JS `mapGeneratorsToIslands(islands, networkData)`: for each
`generator_connection` link, record `parseInt(genId) - 1 ↦ idx` for every
island (by ascending index, later matches overwriting earlier ones) whose
set contains the target bus of the link. -/
def mapGeneratorsToIslands (islands : List (List String)) (g : JsGraph) :
    List (Option Int × Nat) :=
  g.links.foldl
    (fun m l =>
      if l.type = "generator_connection" then
        (islands.enum).foldl
          (fun m2 p => if l.target ∈ p.2 then assocSet m2 (genKeyOf l) p.1 else m2)
          m
      else m)
    []

/-- Read `genSpeeds[parseInt(genId)]` for an entry key: `none` models the
`undefined` read (`NaN` key, negative key, or out-of-range key). -/
def speedAt (gs : List ℚ) (k : Option Int) : Option ℚ :=
  match k with
  | some (Int.ofNat n) => gs.get? n
  | _ => none

/-- JS `islandGens.reduce((sum, genId) => sum + genSpeeds[genId], 0)`: `none`
(JS `NaN`) as soon as one mapped speed is missing. -/
def sumSpeeds (gs : List ℚ) (ks : List (Option Int)) : Option ℚ :=
  ks.foldl
    (fun acc k =>
      match acc, speedAt gs k with
      | some a, some s => some (a + s)
      | _, _ => none)
    (some 0)

/-- JS `islands.indexOf(island)`: index of the first equal element.  (JS
compares by object reference and returns `-1` on a miss; inside
`calculateIslandFrequencies` the probe is always a member of the list, so
the miss value is never observed and the result type can stay `Nat`.) -/
def idxOfJS : List (List String) → List String → Nat
  | [], _ => 0
  | isl :: rest, t => if isl = t then 0 else idxOfJS rest t + 1

/-- JS `calculateIslandFrequencies(islands, genMapping, genSpeeds)`: per
island, `50 * (1 + avgSpeed)` over the generators mapped to
`islands.indexOf(island)`; `none` models the `NaN` produced by an empty
generator set (`0/0`) or by a missing speed entry. -/
def calculateIslandFrequencies (islands : List (List String))
    (gm : List (Option Int × Nat)) (gs : List ℚ) : List (Option ℚ) :=
  islands.map (fun island =>
    let j := idxOfJS islands island
    let gens := (gm.filter (fun e => e.2 = j)).map (fun e => e.1)
    if gens.length = 0 then none
    else
      match sumSpeeds gs gens with
      | some t => some (50 * (1 + t / (gens.length : ℚ)))
      | none => none)

/- ------------------------------------------------------------- -/
/- Flow direction, shared pieces                                  -/
/- ------------------------------------------------------------- -/

/-- The shared result combination of the two one-sided searches (both
variants end with this exact cascade):
`minP_from < minP_to → -1`, `minP_to < minP_from → 1`, tie `0`; a single
non-null side wins; both null gives `0`. -/
def combineSinks (a b : Option ℚ) : Int :=
  match a, b with
  | some x, some y => if x < y then -1 else if y < x then 1 else 0
  | some _, none => -1
  | none, some _ => 1
  | none, none => 0

/-- Fuel for the breadth-first loops: the number of dequeue steps is at most
one plus the total number of enqueues, itself at most
`1 + visits * links ≤ 1 + (nodes + 1) * links`. -/
def sinkFuel (g : JsGraph) : Nat := (g.nodes.length + 1) * (g.links.length + 1) + 1

namespace Part000

/-- The guard `if (l.id && outagedLineIds.includes(l.id)) return false`: a link is
skipped as outaged only when it has a truthy (non-empty) id listed in
`outagedLineIds`. -/
def outagedJS (S : List String) (l : JsLink) : Bool :=
  match l.id with
  | some lid => lid ≠ "" && S.contains lid
  | none => false

/-- The neighbour filter of the part_000 `findDeepestSinkP`: skip outaged
links, keep only lines/transformers, require a truthy far endpoint that is
neither the previous node nor already visited. -/
def walkFilter (g : JsGraph) (S : List String) (visited : List Int)
    (prev : Option Int) (nodeId : String) (l : JsLink) : Bool :=
  !(outagedJS S l) &&
  (l.type = "line" || l.type = "transformer") &&
  (match nextNodeOf l nodeId with
   | some nid =>
     nid ≠ "" && (some (findIdxJS g nid) ≠ prev) && findIdxJS g nid ∉ visited
   | none => false)

/-- The `.map` step after the filter: the node index of the far endpoint (`-1`
when the filter would have rejected the link anyway). -/
def mappedIdx (g : JsGraph) (nodeId : String) (l : JsLink) : Int :=
  match nextNodeOf l nodeId with
  | some nid => findIdxJS g nid
  | none => -1

/-- The neighbour indices enqueued for the current node. -/
def stepNeighbors (g : JsGraph) (S : List String) (visited : List Int)
    (prev : Option Int) (nodeId : String) : List Int :=
  ((g.links.filter (walkFilter g S visited prev nodeId)).map
      (mappedIdx g nodeId)).filter (fun i => i ≠ -1)

/-- The while-loop of the part_000 `findDeepestSinkP`, fuel-indexed.  The
queue holds `(idx, prev)` pairs; the accumulator is `none` while
`foundNonNeutral` is false, otherwise `some minP`.  Only negative
non-neutral injections are recorded. -/
def sinkAux (g : JsGraph) (bp : List (Option ℚ)) (S : List String) :
    Nat → List (Int × Option Int) → List Int → Option ℚ → Option ℚ
  | 0, _, _, acc => acc
  | _ + 1, [], _, acc => acc
  | fuel + 1, (idx, prev) :: rest, visited, acc =>
    if idx ∈ visited then sinkAux g bp S fuel rest visited acc
    else
      let visited1 := sAdd visited idx
      let p := jsP bp idx
      let acc1 := if ¬ isNeutral p ∧ p < 0 then some (min p (acc.getD p)) else acc
      let ns :=
        match nodeIdAt g idx with
        | some nid => stepNeighbors g S visited1 prev nid
        | none => []
      sinkAux g bp S fuel (rest ++ ns.map (fun n => (n, some idx))) visited1 acc1

/-- The part_000 `findDeepestSinkP(startIdx, excludeIdx)`. -/
def findDeepestSinkP (g : JsGraph) (bp : List (Option ℚ)) (S : List String)
    (startIdx excludeIdx : Int) : Option ℚ :=
  sinkAux g bp S (sinkFuel g) [(startIdx, none)] [excludeIdx] none

/-- The part_000 `getLineFlowDirectionSimple(busPower, fromIdx, toIdx,
outagedLineIds)`: guard, then always the two symmetric searches. -/
def getLineFlowDirectionSimple (g : JsGraph) (busPower : Option (List (Option ℚ)))
    (fromIdx toIdx : Int) (outagedLineIds : List String) : Int :=
  match busPower with
  | none => 0
  | some bp =>
    if fromIdx = -1 ∨ toIdx = -1 then 0
    else
      combineSinks (findDeepestSinkP g bp outagedLineIds fromIdx toIdx)
        (findDeepestSinkP g bp outagedLineIds toIdx fromIdx)

end Part000

namespace Part001

/-- The neighbour filter of the part_001 `findDeepestSinkP`: any link touching
the current node where the index of the far endpoint is unvisited — no kind filter
and no outage filter. -/
def neighborKeep (g : JsGraph) (visited : List Int) (nodeId : String)
    (l : JsLink) : Bool :=
  ((l.source = nodeId) && findIdxJS g l.target ∉ visited) ||
  ((l.target = nodeId) && findIdxJS g l.source ∉ visited)

/-- The `.map` step after the filter: node index of the far endpoint. -/
def mappedIdx (g : JsGraph) (nodeId : String) (l : JsLink) : Int :=
  if l.source = nodeId then findIdxJS g l.target else findIdxJS g l.source

/-- The neighbour indices enqueued for the current node. -/
def stepNeighbors (g : JsGraph) (visited : List Int) (nodeId : String) :
    List Int :=
  ((g.links.filter (neighborKeep g visited nodeId)).map
      (mappedIdx g nodeId)).filter (fun i => i ≠ -1)

/-- The while-loop of the part_001 `findDeepestSinkP`, fuel-indexed.  Every
non-neutral injection (positive as well as negative) is recorded. -/
def sinkAux (g : JsGraph) (bp : List (Option ℚ)) :
    Nat → List Int → List Int → Option ℚ → Option ℚ
  | 0, _, _, acc => acc
  | _ + 1, [], _, acc => acc
  | fuel + 1, idx :: rest, visited, acc =>
    if idx ∈ visited then sinkAux g bp fuel rest visited acc
    else
      let visited1 := sAdd visited idx
      let p := jsP bp idx
      let acc1 := if ¬ isNeutral p then some (min p (acc.getD p)) else acc
      let ns :=
        match nodeIdAt g idx with
        | some nid => stepNeighbors g visited1 nid
        | none => []
      sinkAux g bp fuel (rest ++ ns) visited1 acc1

/-- The part_001 `findDeepestSinkP(startIdx, excludeIdx)`. -/
def findDeepestSinkP (g : JsGraph) (bp : List (Option ℚ))
    (startIdx excludeIdx : Int) : Option ℚ :=
  sinkAux g bp (sinkFuel g) [startIdx] [excludeIdx] none

/-- The part_001 `determineDirectionFromBFS()`. -/
def determineDirectionFromBFS (g : JsGraph) (bp : List (Option ℚ))
    (fromIdx toIdx : Int) : Int :=
  combineSinks (findDeepestSinkP g bp fromIdx toIdx)
    (findDeepestSinkP g bp toIdx fromIdx)

/-- The part_001 `getLineFlowDirectionSimple(busPower, fromIdx, toIdx)`:
guard; forced search when B8 is an endpoint; direct comparison when both
endpoints are non-neutral; a signed guess when exactly one endpoint is
neutral; the symmetric search when both are neutral. -/
def getLineFlowDirectionSimple (g : JsGraph) (busPower : Option (List (Option ℚ)))
    (fromIdx toIdx : Int) : Int :=
  match busPower with
  | none => 0
  | some bp =>
    if fromIdx = -1 ∨ toIdx = -1 then 0
    else
      let bus8Idx := findIdxJS g "B8"
      if fromIdx = bus8Idx ∨ toIdx = bus8Idx then
        determineDirectionFromBFS g bp fromIdx toIdx
      else
        let pFrom := jsP bp fromIdx
        let pTo := jsP bp toIdx
        if ¬ isNeutral pFrom ∧ ¬ isNeutral pTo then
          (if pFrom < pTo then -1 else if pTo < pFrom then 1 else 0)
        else if isNeutral pFrom ∧ ¬ isNeutral pTo then
          (if pTo < 0 then 1 else -1)
        else if ¬ isNeutral pFrom ∧ isNeutral pTo then
          (if pFrom < 0 then -1 else 1)
        else determineDirectionFromBFS g bp fromIdx toIdx

end Part001

/- ------------------------------------------------------------- -/
/- Concrete instances used by witnesses and counterexamples       -/
/- ------------------------------------------------------------- -/

/-- Star `B1—B2`, `B1—B3` with two in-service lines. -/
def gStar : JsGraph :=
  { nodes := [⟨"B1"⟩, ⟨"B2"⟩, ⟨"B3"⟩]
    links := [⟨some "L1-2", "line", "B1", "B2"⟩,
              ⟨some "L1-3", "line", "B1", "B3"⟩] }

/-- Sample for `gStar`: both endpoints of `L1-2` inject exactly `5`, a deep
sink of `-10` hangs off `B1`. -/
def bpTie : List (Option ℚ) := [some 5, some 5, some (-10)]

/-- A single line `B1—B2`. -/
def gPair : JsGraph :=
  { nodes := [⟨"B1"⟩, ⟨"B2"⟩]
    links := [⟨some "L1-2", "line", "B1", "B2"⟩] }

/-- Sample for `gPair`: `B1` neutral, `B2` injecting `5`. -/
def bpOneNeutral : List (Option ℚ) := [some 0, some 5]

/-- Line `B1—B2` plus a generator `G1` attached to `B1` through a
`generator_connection` link (no edge id, exactly as in the application
`initialNetworkData`). -/
def gGen : JsGraph :=
  { nodes := [⟨"B1"⟩, ⟨"B2"⟩, ⟨"G1"⟩]
    links := [⟨some "L1-2", "line", "B1", "B2"⟩,
              ⟨none, "generator_connection", "G1", "B1"⟩] }

/-- Sample for `gGen`: both buses neutral, the generator node reads `-50`. -/
def bpGen : List (Option ℚ) := [some 0, some 0, some (-50)]

/- ------------------------------------------------------------- -/
/- Helper lemmas                                                  -/
/- ------------------------------------------------------------- -/

lemma combineSinks_antisym (a b : Option ℚ) :
    combineSinks a b = -combineSinks b a := by
  cases a with
  | none => cases b <;> simp [combineSinks]
  | some x =>
    cases b with
    | none => simp [combineSinks]
    | some y =>
      simp only [combineSinks]
      rcases lt_trichotomy x y with h | h | h
      · simp [h, asymm h]
      · simp [h, lt_irrefl]
      · simp [h, asymm h]

lemma dir000_none (g : JsGraph) (a b : Int) (S : List String) :
    Part000.getLineFlowDirectionSimple g none a b S = 0 := rfl

lemma dir000_guard (g : JsGraph) (l : List (Option ℚ)) (a b : Int)
    (S : List String) (h : a = -1 ∨ b = -1) :
    Part000.getLineFlowDirectionSimple g (some l) a b S = 0 := by
  unfold Part000.getLineFlowDirectionSimple
  exact if_pos h

lemma dir000_run (g : JsGraph) (l : List (Option ℚ)) (a b : Int)
    (S : List String) (h : ¬(a = -1 ∨ b = -1)) :
    Part000.getLineFlowDirectionSimple g (some l) a b S =
      combineSinks (Part000.findDeepestSinkP g l S a b)
        (Part000.findDeepestSinkP g l S b a) := by
  unfold Part000.getLineFlowDirectionSimple
  exact if_neg h

lemma dir001_none (g : JsGraph) (a b : Int) :
    Part001.getLineFlowDirectionSimple g none a b = 0 := rfl

lemma dir001_guard (g : JsGraph) (l : List (Option ℚ)) (a b : Int)
    (h : a = -1 ∨ b = -1) :
    Part001.getLineFlowDirectionSimple g (some l) a b = 0 := by
  unfold Part001.getLineFlowDirectionSimple
  exact if_pos h

lemma dir001_b8 (g : JsGraph) (l : List (Option ℚ)) (a b : Int)
    (h : ¬(a = -1 ∨ b = -1))
    (h8 : a = findIdxJS g "B8" ∨ b = findIdxJS g "B8") :
    Part001.getLineFlowDirectionSimple g (some l) a b =
      Part001.determineDirectionFromBFS g l a b := by
  unfold Part001.getLineFlowDirectionSimple
  dsimp only
  rw [if_neg h]
  exact if_pos h8

lemma dir001_direct (g : JsGraph) (l : List (Option ℚ)) (a b : Int)
    (h : ¬(a = -1 ∨ b = -1))
    (h8 : ¬(a = findIdxJS g "B8" ∨ b = findIdxJS g "B8"))
    (na : ¬ isNeutral (jsP l a)) (nb : ¬ isNeutral (jsP l b)) :
    Part001.getLineFlowDirectionSimple g (some l) a b =
      (if jsP l a < jsP l b then -1 else if jsP l b < jsP l a then 1 else 0) := by
  unfold Part001.getLineFlowDirectionSimple
  dsimp only
  rw [if_neg h, if_neg h8]
  exact if_pos ⟨na, nb⟩

lemma dir001_guessFrom (g : JsGraph) (l : List (Option ℚ)) (a b : Int)
    (h : ¬(a = -1 ∨ b = -1))
    (h8 : ¬(a = findIdxJS g "B8" ∨ b = findIdxJS g "B8"))
    (na : isNeutral (jsP l a)) (nb : ¬ isNeutral (jsP l b)) :
    Part001.getLineFlowDirectionSimple g (some l) a b =
      (if jsP l b < 0 then 1 else -1) := by
  unfold Part001.getLineFlowDirectionSimple
  dsimp only
  rw [if_neg h, if_neg h8, if_neg (fun hc => hc.1 na)]
  exact if_pos ⟨na, nb⟩

lemma dir001_guessTo (g : JsGraph) (l : List (Option ℚ)) (a b : Int)
    (h : ¬(a = -1 ∨ b = -1))
    (h8 : ¬(a = findIdxJS g "B8" ∨ b = findIdxJS g "B8"))
    (na : ¬ isNeutral (jsP l a)) (nb : isNeutral (jsP l b)) :
    Part001.getLineFlowDirectionSimple g (some l) a b =
      (if jsP l a < 0 then -1 else 1) := by
  unfold Part001.getLineFlowDirectionSimple
  dsimp only
  rw [if_neg h, if_neg h8, if_neg (fun hc => hc.2 nb), if_neg (fun hc => na hc.1)]
  exact if_pos ⟨na, nb⟩

lemma dir001_bothNeutral (g : JsGraph) (l : List (Option ℚ)) (a b : Int)
    (h : ¬(a = -1 ∨ b = -1))
    (h8 : ¬(a = findIdxJS g "B8" ∨ b = findIdxJS g "B8"))
    (na : isNeutral (jsP l a)) (nb : isNeutral (jsP l b)) :
    Part001.getLineFlowDirectionSimple g (some l) a b =
      Part001.determineDirectionFromBFS g l a b := by
  unfold Part001.getLineFlowDirectionSimple
  dsimp only
  rw [if_neg h, if_neg h8, if_neg (fun hc => hc.1 na),
    if_neg (fun hc => hc.2 nb), if_neg (fun hc => hc.1 na)]

/-- CLAIM C3: for every network graph, bus-power sample, outage set and pair
of node indices, both variants of `getLineFlowDirectionSimple` are
antisymmetric: `direction(busPower, a, b, S) = -direction(busPower, b, a,
S)`. -/
theorem direction_antisymmetric (g : JsGraph) (bp : Option (List (Option ℚ)))
    (a b : Int) (S : List String) :
    Part000.getLineFlowDirectionSimple g bp a b S =
      -Part000.getLineFlowDirectionSimple g bp b a S ∧
    Part001.getLineFlowDirectionSimple g bp a b =
      -Part001.getLineFlowDirectionSimple g bp b a := by
  constructor
  · cases bp with
    | none => rw [dir000_none, dir000_none]; rfl
    | some l =>
      by_cases h : a = -1 ∨ b = -1
      · rw [dir000_guard g l a b S h, dir000_guard g l b a S h.symm]; rfl
      · rw [dir000_run g l a b S h, dir000_run g l b a S (fun hc => h hc.symm)]
        exact combineSinks_antisym _ _
  · cases bp with
    | none => rw [dir001_none, dir001_none]; rfl
    | some l =>
      by_cases h : a = -1 ∨ b = -1
      · rw [dir001_guard g l a b h, dir001_guard g l b a h.symm]; rfl
      · have h2 : ¬(b = -1 ∨ a = -1) := fun hc => h hc.symm
        by_cases h8 : a = findIdxJS g "B8" ∨ b = findIdxJS g "B8"
        · rw [dir001_b8 g l a b h h8, dir001_b8 g l b a h2 h8.symm]
          exact combineSinks_antisym _ _
        · have h8' : ¬(b = findIdxJS g "B8" ∨ a = findIdxJS g "B8") :=
            fun hc => h8 hc.symm
          by_cases na : isNeutral (jsP l a) <;> by_cases nb : isNeutral (jsP l b)
          · rw [dir001_bothNeutral g l a b h h8 na nb,
              dir001_bothNeutral g l b a h2 h8' nb na]
            exact combineSinks_antisym _ _
          · rw [dir001_guessFrom g l a b h h8 na nb,
              dir001_guessTo g l b a h2 h8' nb na]
            by_cases hlt : jsP l b < 0 <;> simp [hlt]
          · rw [dir001_guessTo g l a b h h8 na nb,
              dir001_guessFrom g l b a h2 h8' nb na]
            by_cases hlt : jsP l a < 0 <;> simp [hlt]
          · rw [dir001_direct g l a b h h8 na nb,
              dir001_direct g l b a h2 h8' nb na]
            rcases lt_trichotomy (jsP l a) (jsP l b) with h3 | h3 | h3
            · rw [if_pos h3, if_neg (asymm h3), if_pos h3]
            · rw [h3]; simp
            · rw [if_neg (asymm h3), if_pos h3, if_pos h3]; rfl

/-- CLAIM C2 counterexample: in `gStar` with sample `bpTie`, buses `B1` and
`B2` both inject exactly `5` (non-neutral and equal), yet the part_000
always-search variant returns `-1`, not `0`: its `fromBus`-side walk reaches
the `-10` sink behind `B1` while the `toBus` side finds nothing. -/
theorem direction_tie_counterexample :
    ¬ isNeutral (jsP bpTie 0) ∧ ¬ isNeutral (jsP bpTie 1) ∧
    jsP bpTie 0 = jsP bpTie 1 ∧
    Part000.getLineFlowDirectionSimple gStar (some bpTie) 0 1 [] = -1 := by
  decide

/-- CLAIM C2 (amended): the exact-tie rule holds of the part_001 variant on
valid indices when neither endpoint is bus `B8`: equal non-neutral
injections yield `0`.  (part_000 resolves every query by search and can
return `±1` on an exact tie; part_001 itself forces the search when `B8` is
an endpoint.) -/
theorem direction_tie_zero_part001 (g : JsGraph) (l : List (Option ℚ))
    (a b : Int) (h : ¬(a = -1 ∨ b = -1))
    (h8 : ¬(a = findIdxJS g "B8" ∨ b = findIdxJS g "B8"))
    (na : ¬ isNeutral (jsP l a)) (nb : ¬ isNeutral (jsP l b))
    (heq : jsP l a = jsP l b) :
    Part001.getLineFlowDirectionSimple g (some l) a b = 0 := by
  rw [dir001_direct g l a b h h8 na nb, heq]
  simp

/-- Witness for `direction_tie_zero_part001` at `gStar`, indices `0`, `1`,
sample `bpTie`. -/
theorem direction_tie_zero_part001_witness :
    Part001.getLineFlowDirectionSimple gStar (some bpTie) 0 1 = 0 :=
  direction_tie_zero_part001 gStar bpTie 0 1 (by decide) (by decide)
    (by decide) (by decide) (by decide)

/-- CLAIM C4 counterexample: on the single line `B1—B2` of `gPair` with
`B1` neutral and `B2` injecting `+5`, part_001 returns the signed guess
`-1` taken from the non-neutral endpoint, while its own symmetric
breadth-first resolution of the same query returns `+1`. -/
theorem direction_guess_counterexample :
    isNeutral (jsP bpOneNeutral 0) ∧ ¬ isNeutral (jsP bpOneNeutral 1) ∧
    Part001.getLineFlowDirectionSimple gPair (some bpOneNeutral) 0 1 = -1 ∧
    Part001.determineDirectionFromBFS gPair bpOneNeutral 0 1 = 1 := by
  decide

/-- CLAIM C4 (amended): on valid indices, part_001 resolves by the
symmetric breadth-first search only when both endpoints are neutral (or
`B8` is an endpoint); when exactly one endpoint is neutral and neither is
`B8` it returns a signed guess read off the non-neutral endpoint; part_000
resolves every query by the symmetric search. -/
theorem direction_neutral_fallback (g : JsGraph) (l : List (Option ℚ))
    (a b : Int) (h : ¬(a = -1 ∨ b = -1)) :
    (isNeutral (jsP l a) → isNeutral (jsP l b) →
      Part001.getLineFlowDirectionSimple g (some l) a b =
        Part001.determineDirectionFromBFS g l a b) ∧
    (¬(a = findIdxJS g "B8" ∨ b = findIdxJS g "B8") → isNeutral (jsP l a) →
      ¬ isNeutral (jsP l b) →
      Part001.getLineFlowDirectionSimple g (some l) a b =
        (if jsP l b < 0 then 1 else -1)) ∧
    (∀ S, Part000.getLineFlowDirectionSimple g (some l) a b S =
      combineSinks (Part000.findDeepestSinkP g l S a b)
        (Part000.findDeepestSinkP g l S b a)) := by
  refine ⟨fun na nb => ?_, fun h8 na nb => dir001_guessFrom g l a b h h8 na nb,
    fun S => dir000_run g l a b S h⟩
  by_cases h8 : a = findIdxJS g "B8" ∨ b = findIdxJS g "B8"
  · exact dir001_b8 g l a b h h8
  · exact dir001_bothNeutral g l a b h h8 na nb

/-- Witness for `direction_neutral_fallback` at `gPair`, indices `0`, `1`,
sample `bpOneNeutral`. -/
theorem direction_neutral_fallback_witness :
    (isNeutral (jsP bpOneNeutral 0) → isNeutral (jsP bpOneNeutral 1) →
      Part001.getLineFlowDirectionSimple gPair (some bpOneNeutral) 0 1 =
        Part001.determineDirectionFromBFS gPair bpOneNeutral 0 1) ∧
    (¬((0 : Int) = findIdxJS gPair "B8" ∨ (1 : Int) = findIdxJS gPair "B8") →
      isNeutral (jsP bpOneNeutral 0) → ¬ isNeutral (jsP bpOneNeutral 1) →
      Part001.getLineFlowDirectionSimple gPair (some bpOneNeutral) 0 1 =
        (if jsP bpOneNeutral 1 < 0 then 1 else -1)) ∧
    (∀ S, Part000.getLineFlowDirectionSimple gPair (some bpOneNeutral) 0 1 S =
      combineSinks (Part000.findDeepestSinkP gPair bpOneNeutral S 0 1)
        (Part000.findDeepestSinkP gPair bpOneNeutral S 1 0)) :=
  direction_neutral_fallback gPair bpOneNeutral 0 1 (by decide)

lemma nodeIdAt_links_irrel (nds : List JsNode) (A B : List JsLink) :
    nodeIdAt ⟨nds, A⟩ = nodeIdAt ⟨nds, B⟩ := rfl

lemma stepNeighbors000_links_irrel (nds : List JsNode) (A B : List JsLink)
    (S : List String) (vis : List Int) (prev : Option Int) (nid : String) :
    Part000.stepNeighbors ⟨nds, A⟩ S vis prev nid =
      ((A.filter (Part000.walkFilter ⟨nds, B⟩ S vis prev nid)).map
        (Part000.mappedIdx ⟨nds, B⟩ nid)).filter (fun i => i ≠ -1) := rfl

lemma walkFilter000_false (g : JsGraph) (S : List String) (vis : List Int)
    (prev : Option Int) (nid : String) (l : JsLink)
    (hl : (l.type ≠ "line" ∧ l.type ≠ "transformer") ∨
      (∃ i, l.id = some i ∧ i ≠ "" ∧ i ∈ S)) :
    Part000.walkFilter g S vis prev nid l = false := by
  unfold Part000.walkFilter
  rcases hl with ⟨h1, h2⟩ | ⟨i, hid, hne, hmem⟩
  · simp [h1, h2]
  · have ho : Part000.outagedJS S l = true := by
      unfold Part000.outagedJS
      rw [hid]
      simp [hne, hmem]
    simp [ho]

/-- CLAIM C5 (amended): the part_000 breadth-first walk never traverses an
edge that is not a Line/Transformer, nor one whose (truthy) id is in the
outaged set: deleting such a link from the graph leaves every step of the
walk unchanged, whatever the fuel, queue, visited set and accumulator.
(the part_001 fallback walk has no such filter; see the counterexample.) -/
theorem walk_respects_conduction (nds : List JsNode) (L1 L2 : List JsLink)
    (l : JsLink) (S : List String)
    (hl : (l.type ≠ "line" ∧ l.type ≠ "transformer") ∨
      (∃ i, l.id = some i ∧ i ≠ "" ∧ i ∈ S))
    (bp : List (Option ℚ)) :
    ∀ fuel q vis acc,
      Part000.sinkAux ⟨nds, L1 ++ l :: L2⟩ bp S fuel q vis acc =
        Part000.sinkAux ⟨nds, L1 ++ L2⟩ bp S fuel q vis acc := by
  intro fuel
  induction fuel with
  | zero => intro q vis acc; rfl
  | succ f ih =>
    intro q vis acc
    cases q with
    | nil => rfl
    | cons hd rest =>
      obtain ⟨idx, prev⟩ := hd
      simp only [Part000.sinkAux]
      by_cases hv : idx ∈ vis
      · rw [if_pos hv, if_pos hv]
        exact ih rest vis acc
      · rw [if_neg hv, if_neg hv]
        rw [← nodeIdAt_links_irrel nds (L1 ++ l :: L2) (L1 ++ L2)]
        have hstep : ∀ (vis2 : List Int) (nid : String),
            Part000.stepNeighbors ⟨nds, L1 ++ l :: L2⟩ S vis2 prev nid =
              Part000.stepNeighbors ⟨nds, L1 ++ L2⟩ S vis2 prev nid := by
          intro vis2 nid
          rw [stepNeighbors000_links_irrel nds (L1 ++ l :: L2) (L1 ++ l :: L2) S
              vis2 prev nid,
            stepNeighbors000_links_irrel nds (L1 ++ L2) (L1 ++ l :: L2) S
              vis2 prev nid,
            List.filter_append, List.filter_append, List.filter_cons,
            walkFilter000_false ⟨nds, L1 ++ l :: L2⟩ S vis2 prev nid l hl]
          simp
        cases hni : nodeIdAt ⟨nds, L1 ++ l :: L2⟩ idx with
        | none => exact ih _ _ _
        | some nid =>
          dsimp only
          rw [hstep]
          exact ih _ _ _

/-- CLAIM C5 counterexample: in `gGen` both buses are neutral, the only
non-neutral injection (`-50`) sits on generator node `G1`, reachable from
`B1` only through a `generator_connection` edge — yet the part_001 fallback
walk reaches it (returning `some (-50)` and direction `-1`), while
the part_000 filtered walk, on the same input, finds nothing and returns
`0`. -/
theorem walk_crosses_any_edge_counterexample :
    isNeutral (jsP bpGen 0) ∧ isNeutral (jsP bpGen 1) ∧
    Part001.findDeepestSinkP gGen bpGen 0 1 = some (-50) ∧
    Part001.getLineFlowDirectionSimple gGen (some bpGen) 0 1 = -1 ∧
    Part000.getLineFlowDirectionSimple gGen (some bpGen) 0 1 [] = 0 := by
  decide

/-- Witness for `walk_respects_conduction`: deleting the
`generator_connection` edge of `gGen` does not change the part_000 walk. -/
theorem walk_respects_conduction_witness :
    Part000.sinkAux ⟨gGen.nodes, [⟨some "L1-2", "line", "B1", "B2"⟩,
        ⟨none, "generator_connection", "G1", "B1"⟩]⟩ bpGen [] 5 [(0, none)] [1] none =
      Part000.sinkAux ⟨gGen.nodes, [⟨some "L1-2", "line", "B1", "B2"⟩]⟩ bpGen []
        5 [(0, none)] [1] none :=
  walk_respects_conduction gGen.nodes [⟨some "L1-2", "line", "B1", "B2"⟩] []
    ⟨none, "generator_connection", "G1", "B1"⟩ [] (Or.inl (by decide)) bpGen
    5 [(0, none)] [1] none

lemma sinkAux000_of_nonneg (g : JsGraph) (bp : List (Option ℚ))
    (S : List String) (h : ∀ i : Int, 0 ≤ jsP bp i) :
    ∀ fuel q vis, Part000.sinkAux g bp S fuel q vis none = none := by
  intro fuel
  induction fuel with
  | zero => intro q vis; rfl
  | succ f ih =>
    intro q vis
    cases q with
    | nil => rfl
    | cons hd rest =>
      obtain ⟨idx, prev⟩ := hd
      simp only [Part000.sinkAux]
      by_cases hv : idx ∈ vis
      · rw [if_pos hv]; exact ih rest vis
      · rw [if_neg hv]
        rw [if_neg (fun hcc => absurd (h idx) (not_le.mpr hcc.2))]
        exact ih _ _

lemma sinkAux001_of_neutral (g : JsGraph) (bp : List (Option ℚ))
    (h : ∀ i : Int, isNeutral (jsP bp i)) :
    ∀ fuel q vis, Part001.sinkAux g bp fuel q vis none = none := by
  intro fuel
  induction fuel with
  | zero => intro q vis; rfl
  | succ f ih =>
    intro q vis
    cases q with
    | nil => rfl
    | cons idx rest =>
      simp only [Part001.sinkAux]
      by_cases hv : idx ∈ vis
      · rw [if_pos hv]; exact ih rest vis
      · rw [if_neg hv]
        rw [if_neg (fun hcc => hcc (h idx))]
        exact ih _ _

/-- CLAIM C6 (amended): the part_000 walk records only negative non-neutral
injections — whenever every readable injection is nonnegative the walk
reports no find at all — and when exactly one side reports a find the
resolved direction points toward that side. -/
theorem sink_tracks_only_negative :
    (∀ (g : JsGraph) (bp : List (Option ℚ)) (S : List String),
      (∀ i : Int, 0 ≤ jsP bp i) →
      ∀ fuel q vis, Part000.sinkAux g bp S fuel q vis none = none) ∧
    (∀ (g : JsGraph) (l : List (Option ℚ)) (S : List String) (a b : Int),
      ¬(a = -1 ∨ b = -1) →
      (∀ x, Part000.findDeepestSinkP g l S a b = some x →
        Part000.findDeepestSinkP g l S b a = none →
        Part000.getLineFlowDirectionSimple g (some l) a b S = -1) ∧
      (Part000.findDeepestSinkP g l S a b = none →
        ∀ x, Part000.findDeepestSinkP g l S b a = some x →
        Part000.getLineFlowDirectionSimple g (some l) a b S = 1)) := by
  refine ⟨fun g bp S h => sinkAux000_of_nonneg g bp S h, fun g l S a b h => ⟨?_, ?_⟩⟩
  · intro x hx hn
    rw [dir000_run g l a b S h, hx, hn]
    rfl
  · intro hn x hx
    rw [dir000_run g l a b S h, hx, hn]
    rfl

/-- Sample with a strict sink at `B1` and a neutral `B2`. -/
def bpNegOne : List (Option ℚ) := [some (-5), some 0]

/-- Witness for `sink_tracks_only_negative` on concrete inputs. -/
theorem sink_tracks_only_negative_witness :
    Part000.sinkAux gPair [] [] 3 [(0, none)] [1] none = none ∧
    Part000.getLineFlowDirectionSimple gPair (some bpNegOne) 0 1 [] = -1 := by
  constructor
  · exact sink_tracks_only_negative.1 gPair [] []
      (fun i => by cases i <;> exact le_refl 0) 3 [(0, none)] [1]
  · exact (sink_tracks_only_negative.2 gPair bpNegOne [] 0 1 (by decide)).1
      (-5) (by decide) (by decide)

/-- CLAIM C6 counterexample: in `gPair` with `bpOneNeutral` the walk rooted
at bus `1` (excluding bus `0`) reaches bus `1` itself, whose injection `+5`
is non-neutral, yet part_000 reports no find (`none`) — positive values are
not tracked — so the whole query resolves to `0` where the part_001 walk
(which does track `+5`) resolves to `1`. -/
theorem sink_ignores_positive_counterexample :
    ¬ isNeutral (jsP bpOneNeutral 1) ∧
    Part000.findDeepestSinkP gPair bpOneNeutral [] 1 0 = none ∧
    Part000.getLineFlowDirectionSimple gPair (some bpOneNeutral) 0 1 [] = 0 ∧
    Part001.findDeepestSinkP gPair bpOneNeutral 1 0 = some 5 ∧
    Part001.determineDirectionFromBFS gPair bpOneNeutral 0 1 = 1 := by
  decide

lemma isNeutral_zero : isNeutral 0 := by decide

/-- CLAIM C9: a `null`/non-array `busPower` makes both variants return `0`;
a missing array slot, entry or `p` field reads as the neutral `0`; and a
sample with no usable data at all (the empty array, every lookup `0`)
yields the indeterminate `0` on every graph, index pair and outage set —
every such call returns a value instead of throwing. -/
theorem direction_degrades_on_missing_data :
    (∀ (g : JsGraph) (a b : Int) (S : List String),
      Part000.getLineFlowDirectionSimple g none a b S = 0 ∧
      Part001.getLineFlowDirectionSimple g none a b = 0) ∧
    (∀ (bp : List (Option ℚ)) (i : Int),
      i < 0 ∨ bp.get? i.toNat = none ∨ bp.get? i.toNat = some none →
      jsP bp i = 0) ∧
    (∀ (g : JsGraph) (a b : Int) (S : List String),
      Part000.getLineFlowDirectionSimple g (some []) a b S = 0 ∧
      Part001.getLineFlowDirectionSimple g (some []) a b = 0) := by
  have hz : ∀ i : Int, jsP [] i = 0 := fun i => by cases i <;> rfl
  have hnn : ∀ i : Int, (0 : ℚ) ≤ jsP [] i := fun i => le_of_eq (hz i).symm
  have hneu : ∀ i : Int, isNeutral (jsP [] i) := fun i => (hz i).symm ▸ isNeutral_zero
  refine ⟨fun g a b S => ⟨rfl, rfl⟩, ?_, fun g a b S => ⟨?_, ?_⟩⟩
  · intro bp i h
    cases i with
    | negSucc n => rfl
    | ofNat n =>
      rcases h with h | h | h
      · exact absurd h (Int.natCast_nonneg n).not_lt
      · have h2 : bp.get? n = none := h
        show ((bp.get? n).bind id).getD 0 = 0
        rw [h2]; rfl
      · have h2 : bp.get? n = some none := h
        show ((bp.get? n).bind id).getD 0 = 0
        rw [h2]; rfl
  · by_cases h : a = -1 ∨ b = -1
    · exact dir000_guard g [] a b S h
    · rw [dir000_run g [] a b S h]
      unfold Part000.findDeepestSinkP
      rw [sinkAux000_of_nonneg g [] S hnn, sinkAux000_of_nonneg g [] S hnn]
      rfl
  · by_cases h : a = -1 ∨ b = -1
    · exact dir001_guard g [] a b h
    · have hbfs : Part001.determineDirectionFromBFS g [] a b = 0 := by
        unfold Part001.determineDirectionFromBFS Part001.findDeepestSinkP
        rw [sinkAux001_of_neutral g [] hneu, sinkAux001_of_neutral g [] hneu]
        rfl
      by_cases h8 : a = findIdxJS g "B8" ∨ b = findIdxJS g "B8"
      · rw [dir001_b8 g [] a b h h8, hbfs]
      · rw [dir001_bothNeutral g [] a b h h8 (hneu a) (hneu b), hbfs]

/-- Witness for `direction_degrades_on_missing_data` on concrete inputs. -/
theorem direction_degrades_on_missing_data_witness :
    jsP [none] 0 = 0 ∧
    Part000.getLineFlowDirectionSimple gPair none 0 1 [] = 0 ∧
    Part001.getLineFlowDirectionSimple gPair (some []) 0 1 = 0 :=
  ⟨direction_degrades_on_missing_data.2.1 [none] 0 (Or.inr (Or.inr rfl)),
    (direction_degrades_on_missing_data.1 gPair 0 1 []).1,
    (direction_degrades_on_missing_data.2.2 gPair 0 1 []).2⟩

lemma sAdd_of_not_mem {α : Type} [DecidableEq α] {s : List α} {x : α}
    (h : x ∉ s) : sAdd s x = s ++ [x] := if_neg h

lemma dfsCanWalk_target_not_visited {lo : LineOutageCfg} {V : List String}
    {nid : String} {l : JsLink} {nxt : String}
    (h : dfsCanWalk lo V nid l = true) (hn : nextNodeOf l nid = some nxt) :
    nxt ∉ V := by
  intro hmem
  unfold dfsCanWalk at h
  rw [hn] at h
  simp [hmem] at h

/-- The dfs adds the same block of fresh node ids to the visited set and to
the current island: starting from an unvisited root with island ⊆ visited,
the result is `(V ++ S, I ++ S)` where `S` contains the root and only ids
that were not yet visited. -/
lemma dfsAux_adds (g : JsGraph) (lo : LineOutageCfg) :
    ∀ (fuel : Nat) (n : String) (V I : List String), n ∉ V → I ⊆ V →
    ∃ S : List String, dfsAux g lo fuel n (V, I) = (V ++ S, I ++ S) ∧
      n ∈ S ∧ ∀ x ∈ S, x ∉ V := by
  intro fuel
  induction fuel with
  | zero =>
    intro n V I hnV hIV
    refine ⟨[n], ?_, List.mem_singleton_self n, by simpa using hnV⟩
    show (sAdd V n, sAdd I n) = (V ++ [n], I ++ [n])
    rw [sAdd_of_not_mem hnV, sAdd_of_not_mem (fun hc => hnV (hIV hc))]
  | succ fuel ih =>
    intro n V I hnV hIV
    rw [dfsAux_succ]
    show ∃ S, (g.links.foldl (dfsStep g lo fuel n) (sAdd V n, sAdd I n)) =
      (V ++ S, I ++ S) ∧ n ∈ S ∧ ∀ x ∈ S, x ∉ V
    rw [sAdd_of_not_mem hnV, sAdd_of_not_mem (fun hc => hnV (hIV hc))]
    have Hfold : ∀ (L : List JsLink) (V0 I0 : List String), I0 ⊆ V0 →
        ∃ S, L.foldl (dfsStep g lo fuel n) (V0, I0) = (V0 ++ S, I0 ++ S) ∧
          ∀ x ∈ S, x ∉ V0 := by
      intro L
      induction L with
      | nil => intro V0 I0 h0; exact ⟨[], by simp, by simp⟩
      | cons l L ihL =>
        intro V0 I0 h0
        rw [List.foldl_cons]
        by_cases hw : dfsCanWalk lo V0 n l
        · cases hn : nextNodeOf l n with
          | none =>
            have hstep : dfsStep g lo fuel n (V0, I0) l = (V0, I0) := by
              unfold dfsStep; rw [if_pos hw, hn]
            rw [hstep]; exact ihL V0 I0 h0
          | some nxt =>
            have hnx : nxt ∉ V0 := dfsCanWalk_target_not_visited hw hn
            obtain ⟨S1, hS1, hnS1, hS1V⟩ := ih nxt V0 I0 hnx h0
            have hstep : dfsStep g lo fuel n (V0, I0) l = (V0 ++ S1, I0 ++ S1) := by
              unfold dfsStep; rw [if_pos hw, hn]; exact hS1
            rw [hstep]
            have h0' : I0 ++ S1 ⊆ V0 ++ S1 := by
              intro x hx
              rcases List.mem_append.mp hx with hx | hx
              · exact List.mem_append.mpr (Or.inl (h0 hx))
              · exact List.mem_append.mpr (Or.inr hx)
            obtain ⟨S2, hS2, hS2V⟩ := ihL (V0 ++ S1) (I0 ++ S1) h0'
            refine ⟨S1 ++ S2, ?_, ?_⟩
            · rw [hS2, List.append_assoc, List.append_assoc]
            · intro x hx
              rcases List.mem_append.mp hx with hx | hx
              · exact hS1V x hx
              · intro hxV; exact hS2V x hx (List.mem_append.mpr (Or.inl hxV))
        · have hstep : dfsStep g lo fuel n (V0, I0) l = (V0, I0) := by
            unfold dfsStep; rw [if_neg hw]
          rw [hstep]; exact ihL V0 I0 h0
    have hsub : I ++ [n] ⊆ V ++ [n] := by
      intro x hx
      rcases List.mem_append.mp hx with hx | hx
      · exact List.mem_append.mpr (Or.inl (hIV hx))
      · exact List.mem_append.mpr (Or.inr hx)
    obtain ⟨S2, hS2, hS2V⟩ := Hfold g.links (V ++ [n]) (I ++ [n]) hsub
    refine ⟨[n] ++ S2, ?_,
      List.mem_append.mpr (Or.inl (List.mem_singleton_self n)), ?_⟩
    · rw [hS2, List.append_assoc, List.append_assoc]
    · intro x hx
      rcases List.mem_append.mp hx with hx | hx
      · rw [List.mem_singleton] at hx; subst hx; exact hnV
      · intro hxV; exact hS2V x hx (List.mem_append.mpr (Or.inl hxV))

/-- Invariant of the `busNodes` loop of `detectIslands`: the visited set is
exactly the union of the emitted islands, the islands are pairwise
disjoint, every processed bus is visited, and both components only grow. -/
lemma islFold_inv (g : JsGraph) (lo : LineOutageCfg) :
    ∀ (L : List JsNode) (st : List String × List (List String)),
    (∀ x, x ∈ st.1 ↔ ∃ isl, isl ∈ st.2 ∧ x ∈ isl) →
    List.Pairwise (fun s t => ∀ x, x ∈ s → x ∉ t) st.2 →
    (∀ x, x ∈ (L.foldl (islStep g lo) st).1 ↔
      ∃ isl, isl ∈ (L.foldl (islStep g lo) st).2 ∧ x ∈ isl) ∧
    List.Pairwise (fun s t => ∀ x, x ∈ s → x ∉ t)
      (L.foldl (islStep g lo) st).2 ∧
    (∀ n ∈ L, n.id ∈ (L.foldl (islStep g lo) st).1) ∧
    (∀ x ∈ st.1, x ∈ (L.foldl (islStep g lo) st).1) := by
  intro L
  induction L with
  | nil =>
    intro st h1 h2
    exact ⟨h1, h2, by simp, fun x hx => hx⟩
  | cons n L ihL =>
    intro st h1 h2
    rw [List.foldl_cons]
    by_cases hv : n.id ∈ st.1
    · have hstep : islStep g lo st n = st := by unfold islStep; rw [if_pos hv]
      rw [hstep]
      obtain ⟨H1, H2, H3, H4⟩ := ihL st h1 h2
      refine ⟨H1, H2, fun m hm => ?_, H4⟩
      rcases List.mem_cons.mp hm with rfl | hm
      · exact H4 _ hv
      · exact H3 m hm
    · obtain ⟨S, hS, hnS, hSV⟩ :=
        dfsAux_adds g lo (dfsFuel g) n.id st.1 [] hv (List.nil_subset _)
      have hS' : dfsAux g lo (dfsFuel g) n.id (st.1, []) = (st.1 ++ S, S) := by
        rw [hS]; rfl
      have hSne : S ≠ [] := fun hc => by
        rw [hc] at hnS; exact absurd hnS (List.not_mem_nil _)
      have hstep : islStep g lo st n = (st.1 ++ S, st.2 ++ [S]) := by
        unfold islStep
        rw [if_neg hv]
        dsimp only
        rw [hS']
        exact if_neg hSne
      rw [hstep]
      have h1' : ∀ x, x ∈ st.1 ++ S ↔ ∃ isl, isl ∈ st.2 ++ [S] ∧ x ∈ isl := by
        intro x
        constructor
        · intro hx
          rcases List.mem_append.mp hx with hx | hx
          · obtain ⟨isl, hisl, hxisl⟩ := (h1 x).mp hx
            exact ⟨isl, List.mem_append.mpr (Or.inl hisl), hxisl⟩
          · exact ⟨S, List.mem_append.mpr (Or.inr (List.mem_singleton_self S)), hx⟩
        · rintro ⟨isl, hisl, hxisl⟩
          rcases List.mem_append.mp hisl with hisl | hisl
          · exact List.mem_append.mpr (Or.inl ((h1 x).mpr ⟨isl, hisl, hxisl⟩))
          · rw [List.mem_singleton] at hisl; subst hisl
            exact List.mem_append.mpr (Or.inr hxisl)
      have h2' : List.Pairwise (fun s t => ∀ x, x ∈ s → x ∉ t) (st.2 ++ [S]) := by
        rw [List.pairwise_append]
        refine ⟨h2, List.pairwise_singleton _ _, ?_⟩
        intro a ha b hb x hxa
        rw [List.mem_singleton] at hb; subst hb
        intro hxS
        exact hSV x hxS ((h1 x).mpr ⟨a, ha, hxa⟩)
      obtain ⟨H1, H2, H3, H4⟩ := ihL (st.1 ++ S, st.2 ++ [S]) h1' h2'
      refine ⟨H1, H2, fun m hm => ?_, fun x hx => ?_⟩
      · rcases List.mem_cons.mp hm with rfl | hm
        · exact H4 _ (List.mem_append.mpr (Or.inr hnS))
        · exact H3 m hm
      · exact H4 x (List.mem_append.mpr (Or.inl hx))

/-- CLAIM C1: for every network graph and outage configuration, each bus
node id lies in exactly one island returned by `detectIslands`: it is in
some island, and in no two islands at different positions. -/
theorem detectIslands_partition (g : JsGraph) (lo : LineOutageCfg)
    (n : JsNode) (hn : n ∈ g.nodes) (hB : startsWithB n.id = true) :
    ∃! k : Fin (detectIslands g lo).length,
      n.id ∈ (detectIslands g lo).get k := by
  have hbus : n ∈ g.nodes.filter (fun m => startsWithB m.id) :=
    List.mem_filter.mpr ⟨hn, hB⟩
  obtain ⟨H1, H2, H3, _⟩ :=
    islFold_inv g lo (g.nodes.filter (fun m => startsWithB m.id)) ([], [])
      (by simp) List.Pairwise.nil
  obtain ⟨isl, hisl, hxisl⟩ := (H1 n.id).mp (H3 n hbus)
  have hne : ((g.nodes.filter (fun m => startsWithB m.id)).foldl
      (islStep g lo) ([], [])).2 ≠ [] := List.ne_nil_of_mem hisl
  have hD : detectIslands g lo =
      ((g.nodes.filter (fun m => startsWithB m.id)).foldl
        (islStep g lo) ([], [])).2 := by
    unfold detectIslands
    exact if_neg (fun hc => hne hc.1)
  rw [hD]
  obtain ⟨k, hk⟩ := List.mem_iff_get.mp hisl
  refine ⟨k, ?_, ?_⟩
  · show n.id ∈ _
    rw [hk]; exact hxisl
  intro k2 hk2
  by_contra hne2
  have hP := List.pairwise_iff_get.mp H2
  rcases lt_trichotomy (k2 : Nat) (k : Nat) with hlt | heq | hlt
  · exact hP k2 k hlt n.id hk2 (by rw [hk]; exact hxisl)
  · exact hne2 (Fin.ext heq)
  · exact hP k k2 hlt n.id (by rw [hk]; exact hxisl) hk2

/-- Witness for `detectIslands_partition`: bus `B1` of the `B1—T1—B5`
fragment lies in exactly one detected island. -/
theorem detectIslands_partition_witness :
    ∃! k : Fin (detectIslands gB1T1B5 none).length,
      "B1" ∈ (detectIslands gB1T1B5 none).get k :=
  detectIslands_partition gB1T1B5 none ⟨"B1"⟩ (by decide) (by decide)

lemma assocSet_forall {P : Option Int × Nat → Prop} (m : List (Option Int × Nat))
    (k : Option Int) (v : Nat) (hm : ∀ e ∈ m, P e) (hkv : P (k, v)) :
    ∀ e ∈ assocSet m k v, P e := by
  unfold assocSet
  by_cases hc : m.any (fun e => e.1 = k) = true
  · rw [if_pos hc]
    intro e he
    obtain ⟨a, ha, hae⟩ := List.mem_map.mp he
    by_cases hak : a.1 = k
    · rw [if_pos hak] at hae; rw [← hae]; exact hkv
    · rw [if_neg hak] at hae; rw [← hae]; exact hm a ha
  · rw [if_neg hc]
    intro e he
    rcases List.mem_append.mp he with he | he
    · exact hm e he
    · rw [List.mem_singleton] at he; rw [he]; exact hkv

/-- CLAIM C7: every entry in the output of `mapGeneratorsToIslands` carries a
valid island index, witnessed by a `generator_connection` link of the graph
whose key matches the entry and whose target bus lies in the island at that
index.  In particular a generator whose bus is in no island contributes no
entry at all. -/
theorem mapGenerators_entries_valid (islands : List (List String))
    (g : JsGraph) (e : Option Int × Nat)
    (he : e ∈ mapGeneratorsToIslands islands g) :
    e.2 < islands.length ∧
    ∃ l ∈ g.links, l.type = "generator_connection" ∧ genKeyOf l = e.1 ∧
      ∃ isl, islands.get? e.2 = some isl ∧ l.target ∈ isl := by
  set P : Option Int × Nat → Prop := fun e =>
    e.2 < islands.length ∧
    ∃ l ∈ g.links, l.type = "generator_connection" ∧ genKeyOf l = e.1 ∧
      ∃ isl, islands.get? e.2 = some isl ∧ l.target ∈ isl with hP
  have Hinner : ∀ (l : JsLink), l ∈ g.links → l.type = "generator_connection" →
      ∀ (E : List (Nat × List String)),
      (∀ p ∈ E, islands.get? p.1 = some p.2) →
      ∀ m, (∀ x ∈ m, P x) →
      ∀ x ∈ E.foldl
        (fun m2 p => if l.target ∈ p.2 then assocSet m2 (genKeyOf l) p.1 else m2) m,
        P x := by
    intro l hl htype E
    induction E with
    | nil => intro _ m hm; exact hm
    | cons p E ihE =>
      intro hE m hm
      rw [List.foldl_cons]
      by_cases hp : l.target ∈ p.2
      · rw [if_pos hp]
        refine ihE (fun q hq => hE q (List.mem_cons_of_mem p hq)) _ ?_
        refine assocSet_forall m (genKeyOf l) p.1 hm ?_
        have hg := hE p (List.mem_cons_self p E)
        refine ⟨(List.get?_eq_some.mp hg).choose, l, hl, htype, rfl, p.2, hg, hp⟩
      · rw [if_neg hp]
        exact ihE (fun q hq => hE q (List.mem_cons_of_mem p hq)) m hm
  have Houter : ∀ (L : List JsLink), (∀ l ∈ L, l ∈ g.links) →
      ∀ m, (∀ x ∈ m, P x) →
      ∀ x ∈ L.foldl
        (fun m l => if l.type = "generator_connection" then
          (islands.enum).foldl
            (fun m2 p => if l.target ∈ p.2 then assocSet m2 (genKeyOf l) p.1 else m2) m
          else m) m,
        P x := by
    intro L
    induction L with
    | nil => intro _ m hm; exact hm
    | cons l L ihL =>
      intro hL m hm
      rw [List.foldl_cons]
      by_cases ht : l.type = "generator_connection"
      · rw [if_pos ht]
        refine ihL (fun q hq => hL q (List.mem_cons_of_mem l hq)) _ ?_
        exact Hinner l (hL l (List.mem_cons_self l L)) ht islands.enum
          (fun p hp => List.mem_enum_iff_get?.mp hp) m hm
      · rw [if_neg ht]
        exact ihL (fun q hq => hL q (List.mem_cons_of_mem l hq)) m hm
  exact Houter g.links (fun l hl => hl) [] (by simp) e he

/-- Witness for `mapGenerators_entries_valid`: the single entry produced on
`gGen` for the island list `[[B1, T1, B5]]`. -/
theorem mapGenerators_entries_valid_witness :
    ((some 0 : Option Int), 0).2 < [["B1", "T1", "B5"]].length ∧
    ∃ l ∈ gGen.links, l.type = "generator_connection" ∧
      genKeyOf l = ((some 0 : Option Int), 0).1 ∧
      ∃ isl, [["B1", "T1", "B5"]].get? ((some 0 : Option Int), 0).2 = some isl ∧
        l.target ∈ isl :=
  mapGenerators_entries_valid [["B1", "T1", "B5"]] gGen (some 0, 0) (by decide)

lemma idxOfJS_getElem :
    ∀ (l : List (List String)), l.Nodup → ∀ (i : Nat) (h : i < l.length),
      idxOfJS l l[i] = i := by
  intro l
  induction l with
  | nil => intro _ i h; exact absurd h (Nat.not_lt_zero i)
  | cons isl rest ih =>
    intro hnd i h
    cases i with
    | zero => show idxOfJS (isl :: rest) isl = 0; unfold idxOfJS; rw [if_pos rfl]
    | succ i =>
      have hi : i < rest.length := Nat.lt_of_succ_lt_succ h
      have hmem : rest[i] ∈ rest := List.getElem_mem hi
      have hne : isl ≠ rest[i] := fun hc =>
        (List.nodup_cons.mp hnd).1 (hc ▸ hmem)
      show idxOfJS (isl :: rest) rest[i] = i + 1
      unfold idxOfJS
      rw [if_neg hne, ih (List.nodup_cons.mp hnd).2 i hi]

lemma sumFold_zero (gs : List ℚ) :
    ∀ (ks : List (Option Int)) (a : ℚ),
      (∀ k ∈ ks, speedAt gs k = some 0) →
      ks.foldl
        (fun acc k =>
          match acc, speedAt gs k with
          | some a, some s => some (a + s)
          | _, _ => none) (some a) = some a := by
  intro ks
  induction ks with
  | nil => intro a _; rfl
  | cons k ks ih =>
    intro a h
    rw [List.foldl_cons]
    have hk : speedAt gs k = some 0 := h k (List.mem_cons_self k ks)
    have hstep :
        (match some a, speedAt gs k with
          | some a, some s => some (a + s)
          | _, _ => none) = some a := by
      rw [hk]; show some (a + 0) = some a; rw [add_zero]
    rw [hstep]
    exact ih a (fun q hq => h q (List.mem_cons_of_mem k hq))

/-- CLAIM C8 counterexample: an island with no mapped generators — for
which "all mapped generator speeds are 0" holds vacuously — produces the
`NaN` marker (`none`, from the `0/0` average), not `50.0`. -/
theorem islandFrequencies_empty_counterexample :
    (∀ k ∈ ((([] : List (Option Int × Nat)).filter (fun e => e.2 = 0)).map
      (fun e => e.1)), speedAt [] k = some 0) ∧
    calculateIslandFrequencies [["B1"]] [] [] = [none] := by
  constructor
  · intro k hk; cases hk
  · rfl

/-- CLAIM C8 (amended): for a duplicate-free islands list, an island with
at least one mapped generator, all of whose mapped generator speeds exist
and equal `0`, gets exactly `50.0` at its index (`50 * (1 + 0)`). -/
theorem islandFrequencies_fifty (islands : List (List String))
    (gm : List (Option Int × Nat)) (gs : List ℚ) (i : Nat)
    (h : i < islands.length) (hnd : islands.Nodup)
    (hne : (gm.filter (fun e => e.2 = i)).map (fun e => e.1) ≠ [])
    (hz : ∀ k ∈ (gm.filter (fun e => e.2 = i)).map (fun e => e.1),
      speedAt gs k = some 0) :
    (calculateIslandFrequencies islands gm gs).get? i = some (some 50) := by
  unfold calculateIslandFrequencies
  rw [List.get?_map, List.get?_eq_getElem?, List.getElem?_eq_getElem h,
    Option.map_some']
  dsimp only
  simp only [idxOfJS_getElem islands hnd i h]
  rw [if_neg (fun hc => hne (List.length_eq_zero.mp hc))]
  have hs : sumSpeeds gs ((gm.filter (fun e => e.2 = i)).map (fun e => e.1)) =
      some 0 := by
    unfold sumSpeeds
    exact sumFold_zero gs _ 0 hz
  rw [hs]
  norm_num

/-- Witness for `islandFrequencies_fifty`: one island, one mapped
generator with speed `0`. -/
theorem islandFrequencies_fifty_witness :
    (calculateIslandFrequencies [["B1"]] [(some 0, 0)] [0]).get? 0 =
      some (some 50) :=
  islandFrequencies_fifty [["B1"]] [(some 0, 0)] [0] 0 (by decide) (by decide)
    (by decide) (by decide)

/-- CLAIM C10: on the `B1 —(transformer)— T1 —(transformer)— B5` fragment
of the application network, `detectIslands` returns a single island that
contains the transformer node `T1` alongside the buses `B1` and `B5`: the
dfs adds every node it visits — bus or not — to the island it was reached
in. -/
theorem islands_contain_transit_nodes :
    detectIslands gB1T1B5 none = [["B1", "T1", "B5"]] := by
  decide
